import Mathlib

/-! # Verification of the ComputeLab job-lifecycle server (`src/server.js`)

Shallow embedding of the in-memory job registry, the submit / get / list /
delete / stats handlers and the timer-driven lifecycle scheduler of
`server.js`, together with proofs about the specified properties.

Modelling conventions:
* JavaScript numbers that the code only ever adds, multiplies, `Math.min`s
  and compares are modelled as rationals (`ℚ`); millisecond timestamps as
  `Nat`.
* `Math.random()` outputs and `Date.now()` readings are passed in as
  explicit oracle arguments, since they are environment inputs.
* The two timer registrations (`setTimeout` for the queued→running start,
  `setInterval` for progress ticks) are modelled as explicit lists of
  pending job ids in the server state; firing a timer is an explicit event.
* Request bodies are JavaScript values, modelled by `JSVal` with its
  truthiness predicate, since the handlers branch on truthiness (`!toolkit`).
-/

namespace ComputeLab

/-- Job status strings used by `server.js` (`'queued'`, `'running'`,
`'completed'`, `'failed'`, `'cancelled'`). -/
inductive JStatus where
  | queued
  | running
  | completed
  | failed
  | cancelled
deriving DecidableEq, Repr

/-- The status as the string stored in the job record. -/
def JStatus.toStr : JStatus → String
  | .queued => "queued"
  | .running => "running"
  | .completed => "completed"
  | .failed => "failed"
  | .cancelled => "cancelled"

/-- A JavaScript value, as far as the handlers inspect one: the submit
handler branches on truthiness of `toolkit` and `config`, the list handler
compares the stored `toolkit` against a query string with `===`, and the
mock-result payloads are opaque objects. -/
inductive JSVal where
  | undef
  | null
  | bool (b : Bool)
  | num (q : ℚ)
  | str (s : String)
  | obj (fields : List (String × String))
deriving DecidableEq, Repr

/-- JavaScript truthiness: `undefined`, `null`, `false`, `0` and `""` are
falsy; every object is truthy. (`NaN`, the one other falsy value, cannot
arise for the fields the code tests.) -/
def JSVal.truthy : JSVal → Bool
  | .undef => false
  | .null => false
  | .bool b => b
  | .num q => !(q == 0)
  | .str s => !(s == "")
  | .obj _ => true

/-- A job record, with exactly the fields built in the submit handler
(`server.js` lines 43–56).  `results` is `none` while the key is absent;
the completion branch of the progress tick sets it. -/
structure Job where
  id : String
  toolkit : JSVal
  config : JSVal
  input_files : List String
  priority : Int
  status : JStatus
  progress : ℚ
  created_at : Nat
  started_at : Option Nat
  completed_at : Option Nat
  queue_position : Nat
  estimated_completion : Nat
  results : Option JSVal
deriving DecidableEq, Repr

/-- Whole-server state: the `jobs` array plus the live timer registrations.
`pendingStarts` holds the ids whose queued→running `setTimeout` has not yet
fired; `activeIntervals` holds the ids with a live progress `setInterval`. -/
structure ServerState where
  jobs : List Job
  pendingStarts : List String
  activeIntervals : List String
deriving DecidableEq, Repr

/-- The empty registry the process starts with (`let jobs = []`). -/
def initState : ServerState := ⟨[], [], []⟩

/-! ## Job id generation (`server.js` line 41)

`const jobId = ` template-interpolating `job_${Date.now()}_${rand}` where
`rand` is the `Math.random().toString(36).substr(2, 9)` suffix.  The
interpolation renders `Date.now()` in decimal; `natRender` is that decimal
rendering, digit characters only. -/

/-- Fuel-driven decimal rendering (structural recursion so that concrete
values reduce in the kernel); with fuel ≥ the number it renders
most-significant-digit-first decimal. -/
def natRenderF : Nat → Nat → List Char
  | 0, n => [Nat.digitChar n]
  | fuel + 1, n =>
      if n < 10 then [Nat.digitChar n]
      else natRenderF fuel (n / 10) ++ [Nat.digitChar (n % 10)]

/-- Decimal rendering of a natural number, most significant digit first,
as JavaScript template interpolation renders a (nonnegative integral)
number. -/
def natRender (n : Nat) : List Char := natRenderF n n

/-- The id template `` `job_${now}_${rand}` `` from the submit handler. -/
def genJobId (now : Nat) (rand : String) : String :=
  ⟨String.data "job_" ++ natRender now ++ '_' :: rand.data⟩

/-! ## List-manipulation helpers mirroring the JS array operations -/

/-- Replace the first element satisfying `p` by its image under `f`
(JavaScript's `jobs.find(...)` followed by in-place mutation of the found
object, or `jobs[idx] = ...` after `findIndex`). -/
def updFirst (p : Job → Bool) (f : Job → Job) : List Job → List Job
  | [] => []
  | x :: xs => if p x then f x :: xs else x :: updFirst p f xs

/-- JavaScript `parseInt(s)` (radix 10 unless the string carries an `0x` prefix), as
the list handler applies it to the `limit` query parameter: skip leading
whitespace, optional sign, then leading digits; `none` models `NaN`. -/
def jsParseInt (s : String) : Option Int :=
  let chars := s.data.dropWhile (fun c => c == ' ' || c == '\t' || c == '\n' || c == '\r')
  let (neg, rest) :=
    match chars with
    | '-' :: cs => (true, cs)
    | '+' :: cs => (false, cs)
    | cs => (false, cs)
  let (radix, body) :=
    match rest with
    | '0' :: 'x' :: cs => (16, cs)
    | '0' :: 'X' :: cs => (16, cs)
    | cs => (10, cs)
  let digits := body.takeWhile (fun c =>
    if radix == 16 then c.isDigit || ('a' ≤ c && c ≤ 'f') || ('A' ≤ c && c ≤ 'F')
    else c.isDigit)
  match digits with
  | [] => none
  | ds =>
      let v := ds.foldl (fun acc c =>
        radix * acc + (if c.isDigit then c.toNat - 48
                       else if 'a' ≤ c && c ≤ 'f' then c.toNat - 87
                       else c.toNat - 55)) 0
      some (if neg then -(v : Int) else (v : Int))

/-- JavaScript `array.slice(0, e)` where `e` may be `NaN` (modelled by `none`): `NaN`
coerces to `0`, a negative end counts from the end of the array, and the
result is the prefix up to the clamped end index. -/
def jsSliceTo (l : List Job) (e : Option Int) : List Job :=
  match e with
  | none => []
  | some k => if k < 0 then l.take (((l.length : Int) + k).toNat) else l.take k.toNat

/-! ## Mock result synthesis (`generateMockResults`, `server.js` 162–205)

The spec places the numeric content of the mock payloads out of scope
("the specific content of synthesized scientific results"); the values are
fresh `Math.random()` draws.  We keep the structure that matters to the
core: a lookup on the toolkit string over the five known keys, falling back
to `{ message: 'Results generated successfully' }` via `||`, and the fact
that the returned value is always a (truthy, non-null) object. -/

/-- The function `generateMockResults(toolkit)`: per-toolkit object lookup with the
`||`-fallback object.  Payload values are opaque here. -/
def generateMockResults (toolkit : JSVal) : JSVal :=
  match toolkit with
  | .str "molecular_dynamics" => .obj [("plots", "rmsd_plot.png")]
  | .str "structure_prediction" => .obj [("structure_file", "predicted_structure.pdb")]
  | .str "quantum_chemistry" => .obj [("optimization_steps", "")]
  | .str "molecular_docking" => .obj [("best_pose", "pose_1.pdbqt")]
  | .str "retrosynthesis" => .obj [("pathways", "")]
  | _ => .obj [("message", "Results generated successfully")]

/-! ## Handler responses -/

/-- Response of the submit route: HTTP 400 with the error message,
or HTTP 201 with the created job. -/
inductive SubmitResponse where
  | validationError (code : Nat) (error : String)
  | created (code : Nat) (job : Job)
deriving DecidableEq, Repr

/-- Response of the delete route. -/
inductive DeleteResponse where
  | notFound (error : String)
  | cancelled (message : String) (job : Job)
  | deleted (message : String)
deriving DecidableEq, Repr

/-- Response body of the list route. -/
structure ListResult where
  total : Nat
  jobs : List Job
deriving DecidableEq, Repr

/-- Response body of `GET /api/v1/stats` (without `uptime`/`timestamp`,
which are process-environment readings, not registry data). -/
structure StatsResult where
  total_jobs : Nat
  completed : Nat
  running : Nat
  queued : Nat
  failed : Nat
  success_rate : ℚ
deriving DecidableEq, Repr

/-! ## The handlers -/

/-- The record built by the submit handler (`server.js` 43–56). -/
def mkJob (st : ServerState) (toolkit config : JSVal)
    (input_files : Option (List String)) (priority : Option Int)
    (now : Nat) (rand : String) : Job :=
  { id := genJobId now rand
    toolkit := toolkit
    config := config
    input_files := input_files.getD []
    priority := priority.getD 5
    status := .queued
    progress := 0
    created_at := now
    started_at := none
    completed_at := none
    queue_position := (st.jobs.filter (fun j => j.status == .queued)).length + 1
    estimated_completion := now + 2 * 60 * 60 * 1000
    results := none }

/-- The handler `POST /api/v1/jobs/submit` (`server.js` 32–87).  `now` is the
`Date.now()` reading and `rand` the random id suffix drawn inside the
handler.  Scheduling the 2-second `setTimeout` is recorded by appending the
new id to `pendingStarts`. -/
def submit (st : ServerState) (toolkit config : JSVal)
    (input_files : Option (List String)) (priority : Option Int)
    (now : Nat) (rand : String) : ServerState × SubmitResponse :=
  if !toolkit.truthy || !config.truthy then
    (st, .validationError 400 "Missing required fields: toolkit and config")
  else
    ({ st with jobs := st.jobs ++ [mkJob st toolkit config input_files priority now rand],
               pendingStarts := st.pendingStarts ++ [genJobId now rand] },
     .created 201 (mkJob st toolkit config input_files priority now rand))

/-- The handler `GET /api/v1/jobs/:jobId` (`server.js` 90–99): `jobs.find(j => j.id === jobId)`;
`none` is the 404 response. -/
def getJob (st : ServerState) (jobId : String) : Option Job :=
  st.jobs.find? (fun j => j.id == jobId)

/-- The queued→running `setTimeout` callback firing for `jobId`
(`server.js` 61–84).  It can only fire while its registration is pending;
firing consumes the registration.  The callback re-looks the job up by id:
if it is gone the callback does nothing, otherwise it sets
`status='running'`, `started_at=now` and registers the progress interval. -/
def fireStart (st : ServerState) (jobId : String) (now : Nat) : ServerState :=
  if jobId ∈ st.pendingStarts then
    match st.jobs.find? (fun j => j.id == jobId) with
    | none => { st with pendingStarts := st.pendingStarts.erase jobId }
    | some _ =>
        { st with
            jobs := updFirst (fun j => j.id == jobId)
              (fun j => { j with status := .running, started_at := some now }) st.jobs,
            pendingStarts := st.pendingStarts.erase jobId,
            activeIntervals := st.activeIntervals ++ [jobId] }
  else st

/-- One progress step on a running job (`server.js` 71–78): add
`Math.random() * 20` (the draw `r` is passed in, `0 ≤ r < 1`), clamp with
`Math.min(·, 100)`; on reaching 100, complete the job and attach results. -/
def advance (r : ℚ) (now : Nat) (j : Job) : Job :=
  let p := min (j.progress + r * 20) 100
  if 100 ≤ p then
    { j with progress := p, status := .completed, completed_at := some now,
             results := some (generateMockResults j.toolkit) }
  else
    { j with progress := p }

/-- The progress `setInterval` callback firing for `jobId`
(`server.js` 68–82).  It can only fire while its interval is live.  The
callback re-reads the job by id; if it is missing or not `running` it
clears its own interval and writes nothing; otherwise it advances the job
and, when the job completes, clears the interval. -/
def tick (st : ServerState) (jobId : String) (r : ℚ) (now : Nat) : ServerState :=
  if jobId ∈ st.activeIntervals then
    match st.jobs.find? (fun j => j.id == jobId) with
    | some c =>
        if c.status == .running then
          { st with
              jobs := updFirst (fun j => j.id == jobId) (advance r now) st.jobs,
              activeIntervals :=
                if 100 ≤ (advance r now c).progress then st.activeIntervals.erase jobId
                else st.activeIntervals }
        else { st with activeIntervals := st.activeIntervals.erase jobId }
    | none => { st with activeIntervals := st.activeIntervals.erase jobId }
  else st

/-- The status filter `if (status) ... j.status === status` and toolkit
filter `if (toolkit) ... j.toolkit === toolkit` of the list handler;
a query parameter is a string, absent parameters are `none`, and the empty
string is falsy so it disables the filter. -/
def matchingJobs (st : ServerState) (status toolkit : Option String) : List Job :=
  let f1 :=
    match status with
    | some s => if s == "" then st.jobs else st.jobs.filter (fun j => j.status.toStr == s)
    | none => st.jobs
  match toolkit with
  | some t => if t == "" then f1 else f1.filter (fun j => j.toolkit == .str t)
  | none => f1

/-- The effective `slice` end for the `limit` parameter:
`const { limit = 50 } = req.query` then `parseInt(limit)`.  An absent
parameter defaults to the number 50 (whose `parseInt` is 50); a present one
is a string fed to `parseInt`, `none` modelling `NaN`. -/
def effLimit : Option String → Option Int
  | none => some 50
  | some s => jsParseInt s

/-- The handler `GET /api/v1/jobs/list` (`server.js` 102–121): filter, then
`filteredJobs = filteredJobs.slice(0, parseInt(limit))`, then respond with
`{ total: filteredJobs.length, jobs: filteredJobs }`. -/
def listJobs (st : ServerState) (status toolkit limit : Option String) : ListResult :=
  let filtered := jsSliceTo (matchingJobs st status toolkit) (effLimit limit)
  { total := filtered.length, jobs := filtered }

/-- The handler `DELETE /api/v1/jobs/:jobId` (`server.js` 124–141): `findIndex` by id;
404 when absent; a `running` job is cancelled in place (the record stays),
any other job is `splice`d out of the array. -/
def deleteJob (st : ServerState) (jobId : String) : ServerState × DeleteResponse :=
  match st.jobs.find? (fun j => j.id == jobId) with
  | none => (st, .notFound "Job not found")
  | some job =>
      if job.status == .running then
        ({ st with jobs := updFirst (fun j => j.id == jobId) (fun j => { j with status := .cancelled }) st.jobs },
         .cancelled "Job cancelled" { job with status := .cancelled })
      else
        ({ st with jobs := st.jobs.eraseP (fun j => j.id == jobId) },
         .deleted "Job deleted")

/-- JavaScript `toFixed(2)` on the values the stats handler produces: round to the
nearest multiple of 1/100, half away from zero (the arguments here are
nonnegative, so `round` — half-up — agrees). -/
def toFixed2 (q : ℚ) : ℚ := (round (q * 100) : ℤ) / 100

/-- The handler `GET /api/v1/stats` (`server.js` 144–159): one pass of status counts
over the registry and the guarded success-rate formula. -/
def statsOf (jobs : List Job) : StatsResult :=
  { total_jobs := jobs.length
    completed := (jobs.filter (fun j => j.status == .completed)).length
    running := (jobs.filter (fun j => j.status == .running)).length
    queued := (jobs.filter (fun j => j.status == .queued)).length
    failed := (jobs.filter (fun j => j.status == .failed)).length
    success_rate :=
      if jobs.length > 0 then
        toFixed2 ((((jobs.filter (fun j => j.status == .completed)).length : ℚ) / (jobs.length : ℚ)) * 100)
      else 100 }

/-! ## Events and reachable states

An event is one externally- or timer-triggered step of the system.  Timer
events (`fireStart`, `tick`) are only enabled while the corresponding
registration is live — the step functions above make them no-ops
otherwise.  A well-formed trace draws `Math.random()` in `[0,1)` and never
repeats a generated job id (the process generates ids from the clock and a
9-character random suffix; id freshness is the uniqueness assumption the
spec states). -/

/-- One step of the system. -/
inductive Event where
  | submit (toolkit config : JSVal) (input_files : Option (List String))
      (priority : Option Int) (now : Nat) (rand : String)
  | fireStart (jobId : String) (now : Nat)
  | tick (jobId : String) (r : ℚ) (now : Nat)
  | delete (jobId : String)

/-- Apply an event to the server state (responses discarded). -/
def stepE (st : ServerState) : Event → ServerState
  | .submit tk cfg fs p now rand => (submit st tk cfg fs p now rand).1
  | .fireStart jid now => fireStart st jid now
  | .tick jid r now => tick st jid r now
  | .delete jid => (deleteJob st jid).1

/-- A generated id is fresh: unused by any job record and by any live timer
registration. -/
def FreshId (st : ServerState) (jid : String) : Prop :=
  (∀ j ∈ st.jobs, j.id ≠ jid) ∧ jid ∉ st.pendingStarts ∧ jid ∉ st.activeIntervals

instance (st : ServerState) (jid : String) : Decidable (FreshId st jid) := by
  unfold FreshId; infer_instance

/-- Side conditions of a well-formed trace: submissions draw fresh ids, and
progress ticks draw `Math.random()` in `[0, 1)`. -/
def WfEvent (st : ServerState) : Event → Prop
  | .submit _ _ _ _ now rand => FreshId st (genJobId now rand)
  | .tick _ r _ => 0 ≤ r ∧ r < 1
  | _ => True

instance (st : ServerState) (e : Event) : Decidable (WfEvent st e) := by
  cases e <;> (unfold WfEvent; infer_instance)

/-- The states the server can actually be in: everything reachable from the
empty registry by well-formed events. -/
inductive Reach : ServerState → Prop where
  | init : Reach initState
  | step {st : ServerState} (e : Event) : Reach st → WfEvent st e → Reach (stepE st e)

/-! ## Helper lemmas about `updFirst` -/

theorem updFirst_length (p : Job → Bool) (f : Job → Job) (l : List Job) :
    (updFirst p f l).length = l.length := by
  induction l with
  | nil => rfl
  | cons x xs ih => simp only [updFirst]; split <;> simp [ih]

/-- A member of the updated list is an old member or the image of the first
match. -/
theorem of_mem_updFirst {p : Job → Bool} {f : Job → Job} {l : List Job} {j : Job}
    (h : j ∈ updFirst p f l) : j ∈ l ∨ ∃ c, l.find? p = some c ∧ j = f c := by
  induction l with
  | nil => cases h
  | cons x xs ih =>
    simp only [updFirst] at h
    by_cases hx : p x
    · rw [if_pos hx] at h
      rcases List.mem_cons.mp h with h | h
      · exact Or.inr ⟨x, List.find?_cons_of_pos _ hx, h⟩
      · exact Or.inl (List.mem_cons_of_mem _ h)
    · rw [if_neg hx] at h
      rcases List.mem_cons.mp h with h | h
      · exact Or.inl (List.mem_cons.mpr (Or.inl h))
      · rcases ih h with h' | ⟨c, hc, hj⟩
        · exact Or.inl (List.mem_cons_of_mem _ h')
        · exact Or.inr ⟨c, by rw [List.find?_cons_of_neg _ hx]; exact hc, hj⟩

/-- Old members other than the first match survive the update untouched. -/
theorem mem_updFirst_of_ne {p : Job → Bool} {f : Job → Job} {l : List Job} {c j : Job}
    (hf : l.find? p = some c) (hj : j ∈ l) (hne : j ≠ c) :
    j ∈ updFirst p f l := by
  induction l with
  | nil => cases hj
  | cons x xs ih =>
    by_cases hx : p x
    · rw [List.find?_cons_of_pos _ hx] at hf
      injection hf with hf; subst hf
      simp only [updFirst, if_pos hx]
      rcases List.mem_cons.mp hj with h | h
      · exact absurd h hne
      · exact List.mem_cons_of_mem _ h
    · rw [List.find?_cons_of_neg _ hx] at hf
      simp only [updFirst, if_neg hx]
      rcases List.mem_cons.mp hj with h | h
      · exact List.mem_cons.mpr (Or.inl h)
      · exact List.mem_cons_of_mem _ (ih hf h)

/-- Looking up by the same predicate after the update finds the updated
record, provided the update keeps the predicate true. -/
theorem find?_updFirst {p : Job → Bool} {f : Job → Job} {l : List Job} {c : Job}
    (hf : l.find? p = some c) (hfc : p (f c) = true) :
    (updFirst p f l).find? p = some (f c) := by
  induction l with
  | nil => simp at hf
  | cons x xs ih =>
    by_cases hx : p x
    · rw [List.find?_cons_of_pos _ hx] at hf
      injection hf with hf; subst hf
      simp only [updFirst, if_pos hx]
      exact List.find?_cons_of_pos _ hfc
    · rw [List.find?_cons_of_neg _ hx] at hf
      simp only [updFirst, if_neg hx]
      rw [List.find?_cons_of_neg _ hx]
      exact ih hf


/-- Updates that keep a projection fixed on matches keep the projected list
fixed. -/
theorem map_updFirst {p : Job → Bool} {f : Job → Job} {g : Job → String} (l : List Job)
    (hg : ∀ x, p x = true → g (f x) = g x) :
    (updFirst p f l).map g = l.map g := by
  induction l with
  | nil => rfl
  | cons x xs ih =>
    simp only [updFirst]
    by_cases hx : p x
    · rw [if_pos hx]; simp [hg x hx]
    · rw [if_neg hx]; simp [ih]

/-! ## The decimal rendering: digit characters only, and injectivity -/

theorem digitChar_isDigit {m : Nat} (h : m < 10) : (Nat.digitChar m).isDigit = true := by
  interval_cases m <;> decide

theorem digitChar_toNat {m : Nat} (h : m < 10) : (Nat.digitChar m).toNat = m + 48 := by
  interval_cases m <;> decide

theorem natRenderF_digits : ∀ (fuel n : Nat), n ≤ fuel ∨ n < 10 →
    ∀ c ∈ natRenderF fuel n, c.isDigit = true := by
  intro fuel
  induction fuel with
  | zero =>
    intro n hn c hc
    simp only [natRenderF, List.mem_singleton] at hc
    subst hc
    exact digitChar_isDigit (by omega)
  | succ fuel ih =>
    intro n hn c hc
    simp only [natRenderF] at hc
    by_cases h10 : n < 10
    · rw [if_pos h10] at hc
      simp only [List.mem_singleton] at hc
      subst hc
      exact digitChar_isDigit h10
    · rw [if_neg h10] at hc
      rcases List.mem_append.mp hc with h | h
      · exact ih (n / 10) (Or.inl (by omega)) c h
      · simp only [List.mem_singleton] at h
        subst h
        exact digitChar_isDigit (Nat.mod_lt _ (by omega))

theorem natRender_digits (n : Nat) : ∀ c ∈ natRender n, c.isDigit = true :=
  natRenderF_digits n n (Or.inl le_rfl)

theorem underscore_not_mem_natRender (n : Nat) : '_' ∉ natRender n := by
  intro h
  have := natRender_digits n _ h
  simp [Char.isDigit] at this

/-- Reading the rendered digits back as a decimal number. -/
def decVal (cs : List Char) : Nat :=
  cs.foldl (fun a c => 10 * a + (c.toNat - 48)) 0

theorem natRenderF_foldl : ∀ (fuel n acc : Nat), n ≤ fuel ∨ n < 10 →
    (natRenderF fuel n).foldl (fun a c => 10 * a + (c.toNat - 48)) acc
      = acc * 10 ^ (natRenderF fuel n).length + n := by
  intro fuel
  induction fuel with
  | zero =>
    intro n hn acc
    have h10 : n < 10 := by omega
    simp [natRenderF, digitChar_toNat h10]
    ring
  | succ fuel ih =>
    intro n acc hn
    by_cases h10 : n < 10
    · simp [natRenderF, if_pos h10, digitChar_toNat h10]
      ring
    · have hdiv : n / 10 ≤ fuel ∨ n / 10 < 10 := Or.inl (by omega)
      simp only [natRenderF, if_neg h10, List.foldl_append, List.length_append,
        List.foldl_cons, List.foldl_nil, List.length_cons, List.length_nil]
      rw [ih (n / 10) acc hdiv]
      rw [digitChar_toNat (Nat.mod_lt _ (by omega))]
      have : 10 * (acc * 10 ^ (natRenderF fuel (n / 10)).length + n / 10) + (n % 10 + 48 - 48)
          = acc * 10 ^ ((natRenderF fuel (n / 10)).length + 1) + (10 * (n / 10) + n % 10) := by
        ring_nf
        omega
      rw [this, Nat.div_add_mod]

theorem decVal_natRender (n : Nat) : decVal (natRender n) = n := by
  unfold decVal natRender
  rw [natRenderF_foldl n n 0 (Or.inl le_rfl)]
  simp

theorem natRender_inj {a b : Nat} (h : natRender a = natRender b) : a = b := by
  have := decVal_natRender a
  rw [h, decVal_natRender] at this
  omega

/-- Splitting a character list at the first `'_'` is unambiguous when the
prefixes contain none. -/
theorem split_at_first_underscore (a1 : List Char) :
    ∀ (a2 b1 b2 : List Char), '_' ∉ a1 → '_' ∉ a2 →
      a1 ++ '_' :: b1 = a2 ++ '_' :: b2 → a1 = a2 ∧ b1 = b2 := by
  induction a1 with
  | nil =>
    intro a2 b1 b2 _ h2 h
    cases a2 with
    | nil => simpa using h
    | cons d ds =>
      simp only [List.nil_append, List.cons_append, List.cons.injEq] at h
      exact absurd (h.1 ▸ List.mem_cons_self d ds) (h.1 ▸ h2)
  | cons c cs ih =>
    intro a2 b1 b2 h1 h2 h
    cases a2 with
    | nil =>
      simp only [List.cons_append, List.nil_append, List.cons.injEq] at h
      exact absurd (h.1 ▸ List.mem_cons_self c cs) fun hm => h1 (h.1 ▸ hm)
    | cons d ds =>
      simp only [List.cons_append, List.cons.injEq] at h
      obtain ⟨hcd, hrest⟩ := h
      have h1' : '_' ∉ cs := fun hm => h1 (List.mem_cons_of_mem _ hm)
      have h2' : '_' ∉ ds := fun hm => h2 (List.mem_cons_of_mem _ hm)
      obtain ⟨ha, hb⟩ := ih ds b1 b2 h1' h2' hrest
      exact ⟨by rw [hcd, ha], hb⟩

/-- The generated job id determines the `Date.now()` reading and the random
suffix: ids computed from different (timestamp, suffix) pairs differ. -/
theorem genJobId_inj {n1 n2 : Nat} {r1 r2 : String}
    (h : genJobId n1 r1 = genJobId n2 r2) : n1 = n2 ∧ r1 = r2 := by
  unfold genJobId at h
  have hd : String.data "job_" ++ (natRender n1 ++ '_' :: r1.data)
      = String.data "job_" ++ (natRender n2 ++ '_' :: r2.data) := by
    have := congrArg String.data h
    simpa using this
  have hmid := List.append_cancel_left hd
  obtain ⟨ha, hb⟩ := split_at_first_underscore (natRender n1) (natRender n2)
    r1.data r2.data (underscore_not_mem_natRender n1) (underscore_not_mem_natRender n2) hmid
  refine ⟨natRender_inj ha, ?_⟩
  cases r1; cases r2; exact congrArg String.mk hb

/-! ## Facts about a single progress step -/

theorem advance_id (r : ℚ) (now : Nat) (j : Job) : (advance r now j).id = j.id := by
  unfold advance; dsimp only; split <;> rfl

theorem advance_progress (r : ℚ) (now : Nat) (j : Job) :
    (advance r now j).progress = min (j.progress + r * 20) 100 := by
  unfold advance; dsimp only; split <;> rfl

theorem advance_results_iff (r : ℚ) (now : Nat) (j : Job)
    (h : j.results.isSome = true ↔ j.status = .completed) :
    ((advance r now j).results.isSome = true ↔ (advance r now j).status = .completed) := by
  unfold advance; dsimp only; split
  · simp
  · simpa using h

theorem advance_progress_nonneg (r : ℚ) (now : Nat) (j : Job)
    (h0 : 0 ≤ j.progress) (hr : 0 ≤ r) : 0 ≤ (advance r now j).progress := by
  rw [advance_progress]
  exact le_min (by positivity) (by norm_num)

theorem advance_progress_le_100 (r : ℚ) (now : Nat) (j : Job) :
    (advance r now j).progress ≤ 100 := by
  rw [advance_progress]; exact min_le_right _ _

/-! ## The state invariant

Everything provable of every reachable state that the claimed data-model
invariants rest on: `results` tracks `completed`, `progress` stays in
`[0, 100]`, a job with a pending start timer is still `queued`, and the
freshness discipline keeps timer registrations and job ids duplicate-free. -/

def Inv (st : ServerState) : Prop :=
  (∀ j ∈ st.jobs, (j.results.isSome = true ↔ j.status = .completed)) ∧
  (∀ j ∈ st.jobs, 0 ≤ j.progress ∧ j.progress ≤ 100) ∧
  (∀ jid ∈ st.pendingStarts, ∀ j ∈ st.jobs, j.id = jid → j.status = .queued) ∧
  st.pendingStarts.Nodup ∧
  (st.jobs.map Job.id).Nodup

theorem inv_init : Inv initState := by
  refine ⟨?_, ?_, ?_, ?_, ?_⟩ <;> simp [initState]

theorem inv_submit {st : ServerState} {tk cfg : JSVal} {fs : Option (List String)}
    {pr : Option Int} {now : Nat} {rand : String}
    (h : Inv st) (hf : FreshId st (genJobId now rand)) :
    Inv (submit st tk cfg fs pr now rand).1 := by
  obtain ⟨h1, h2, h3, h4, h5⟩ := h
  obtain ⟨hf1, hf2, _⟩ := hf
  unfold submit
  by_cases hv : (!tk.truthy || !cfg.truthy) = true
  · rw [if_pos hv]; exact ⟨h1, h2, h3, h4, h5⟩
  · rw [if_neg hv]
    refine ⟨?_, ?_, ?_, ?_, ?_⟩
    · intro j hj
      rcases List.mem_append.mp hj with hj | hj
      · exact h1 j hj
      · rw [List.mem_singleton] at hj; subst hj
        simp [mkJob]
    · intro j hj
      rcases List.mem_append.mp hj with hj | hj
      · exact h2 j hj
      · rw [List.mem_singleton] at hj; subst hj
        refine ⟨le_refl _, by norm_num [mkJob]⟩
    · intro jid hjid j hj hid
      rcases List.mem_append.mp hjid with hjid | hjid
      · rcases List.mem_append.mp hj with hj | hj
        · exact h3 jid hjid j hj hid
        · rw [List.mem_singleton] at hj; subst hj
          have hgen : (mkJob st tk cfg fs pr now rand).id = genJobId now rand := rfl
          rw [hgen] at hid
          exact absurd (hid ▸ hjid) hf2
      · rw [List.mem_singleton] at hjid; subst hjid
        rcases List.mem_append.mp hj with hj | hj
        · exact absurd hid (hf1 j hj)
        · rw [List.mem_singleton] at hj; subst hj; rfl
    · simp only [List.nodup_append, List.nodup_singleton]
      exact ⟨h4, trivial, by simpa [List.disjoint_singleton] using hf2⟩
    · simp only [List.map_append, List.map_singleton, List.nodup_append,
        List.nodup_singleton]
      refine ⟨h5, trivial, ?_⟩
      intro a ha
      simp only [List.mem_singleton]
      intro hb
      subst hb
      obtain ⟨j, hj, hid⟩ := List.mem_map.mp ha
      exact hf1 j hj hid

theorem inv_fireStart {st : ServerState} {jid : String} {now : Nat}
    (h : Inv st) : Inv (fireStart st jid now) := by
  obtain ⟨h1, h2, h3, h4, h5⟩ := h
  unfold fireStart
  by_cases hmem : jid ∈ st.pendingStarts
  · rw [if_pos hmem]
    cases hfind : st.jobs.find? (fun j => j.id == jid) with
    | none =>
      exact ⟨h1, h2,
        fun jid' hj' j hj hid => h3 jid' (List.mem_of_mem_erase hj') j hj hid,
        h4.erase _, h5⟩
    | some c =>
      dsimp only
      have hcmem : c ∈ st.jobs := List.mem_of_find?_eq_some hfind
      have hcid : c.id = jid := by simpa using List.find?_some hfind
      have hcq : c.status = .queued := h3 jid hmem c hcmem hcid
      refine ⟨?_, ?_, ?_, h4.erase _, ?_⟩
      · intro j hj
        rcases of_mem_updFirst hj with hj | ⟨c', hc', hj⟩
        · exact h1 j hj
        · rw [hfind] at hc'; injection hc' with hc'; subst hc'; subst hj
          have hres := h1 c hcmem
          rw [hcq] at hres
          simp only [iff_false, reduceCtorEq] at hres
          simp [hres]
      · intro j hj
        rcases of_mem_updFirst hj with hj | ⟨c', hc', hj⟩
        · exact h2 j hj
        · rw [hfind] at hc'; injection hc' with hc'; subst hc'; subst hj
          simpa using h2 c hcmem
      · intro jid' hjid' j hj hid
        rcases of_mem_updFirst hj with hj | ⟨c', hc', hj⟩
        · exact h3 jid' (List.mem_of_mem_erase hjid') j hj hid
        · rw [hfind] at hc'; injection hc' with hc'; subst hc'; subst hj
          have hji : jid = jid' := by rw [← hcid]; exact hid
          subst hji
          exact absurd hjid' (h4.not_mem_erase)
      · have hids : (updFirst (fun j => j.id == jid)
            (fun j => { j with status := JStatus.running, started_at := some now }) st.jobs).map Job.id
            = st.jobs.map Job.id := map_updFirst _ (fun x _ => rfl)
        dsimp only
        rw [hids]
        exact h5
  · rw [if_neg hmem]; exact ⟨h1, h2, h3, h4, h5⟩

theorem inv_tick {st : ServerState} {jid : String} {r : ℚ} {now : Nat}
    (h : Inv st) (hr : 0 ≤ r) : Inv (tick st jid r now) := by
  obtain ⟨h1, h2, h3, h4, h5⟩ := h
  unfold tick
  by_cases hmem : jid ∈ st.activeIntervals
  · rw [if_pos hmem]
    cases hfind : st.jobs.find? (fun j => j.id == jid) with
    | none => exact ⟨h1, h2, h3, h4, h5⟩
    | some c =>
      dsimp only
      by_cases hrun : (c.status == JStatus.running) = true
      · rw [if_pos hrun]
        have hcmem : c ∈ st.jobs := List.mem_of_find?_eq_some hfind
        rw [beq_iff_eq] at hrun
        refine ⟨?_, ?_, ?_, h4, ?_⟩
        · intro j hj
          rcases of_mem_updFirst hj with hj | ⟨c', hc', hj⟩
          · exact h1 j hj
          · rw [hfind] at hc'; injection hc' with hc'; subst hc'; subst hj
            exact advance_results_iff r now c (h1 c hcmem)
        · intro j hj
          rcases of_mem_updFirst hj with hj | ⟨c', hc', hj⟩
          · exact h2 j hj
          · rw [hfind] at hc'; injection hc' with hc'; subst hc'; subst hj
            exact ⟨advance_progress_nonneg r now c (h2 c hcmem).1 hr,
              advance_progress_le_100 r now c⟩
        · intro jid' hjid' j hj hid
          rcases of_mem_updFirst hj with hj | ⟨c', hc', hj⟩
          · exact h3 jid' hjid' j hj hid
          · rw [hfind] at hc'; injection hc' with hc'; subst hc'; subst hj
            rw [advance_id] at hid
            have hq := h3 jid' hjid' c hcmem hid
            rw [hrun] at hq
            exact JStatus.noConfusion hq
        · rw [map_updFirst _ (fun x _ => advance_id r now x)]
          exact h5
      · rw [if_neg hrun]; exact ⟨h1, h2, h3, h4, h5⟩
  · rw [if_neg hmem]; exact ⟨h1, h2, h3, h4, h5⟩

theorem inv_delete {st : ServerState} {jid : String}
    (h : Inv st) : Inv (deleteJob st jid).1 := by
  obtain ⟨h1, h2, h3, h4, h5⟩ := h
  unfold deleteJob
  cases hfind : st.jobs.find? (fun j => j.id == jid) with
  | none => exact ⟨h1, h2, h3, h4, h5⟩
  | some c =>
    dsimp only
    by_cases hrun : (c.status == JStatus.running) = true
    · rw [if_pos hrun]
      have hcmem : c ∈ st.jobs := List.mem_of_find?_eq_some hfind
      rw [beq_iff_eq] at hrun
      refine ⟨?_, ?_, ?_, h4, ?_⟩
      · intro j hj
        rcases of_mem_updFirst hj with hj | ⟨c', hc', hj⟩
        · exact h1 j hj
        · rw [hfind] at hc'; injection hc' with hc'; subst hc'; subst hj
          have hres := h1 c hcmem
          rw [hrun] at hres
          simp only [iff_false, reduceCtorEq] at hres
          simp [hres]
      · intro j hj
        rcases of_mem_updFirst hj with hj | ⟨c', hc', hj⟩
        · exact h2 j hj
        · rw [hfind] at hc'; injection hc' with hc'; subst hc'; subst hj
          simpa using h2 c hcmem
      · intro jid' hjid' j hj hid
        rcases of_mem_updFirst hj with hj | ⟨c', hc', hj⟩
        · exact h3 jid' hjid' j hj hid
        · rw [hfind] at hc'; injection hc' with hc'; subst hc'; subst hj
          have hq := h3 jid' hjid' c hcmem hid
          rw [hrun] at hq
          exact JStatus.noConfusion hq
      · have hids : (updFirst (fun j => j.id == jid)
            (fun j => { j with status := JStatus.cancelled }) st.jobs).map Job.id
            = st.jobs.map Job.id := map_updFirst _ (fun x _ => rfl)
        dsimp only
        rw [hids]
        exact h5
    · rw [if_neg hrun]
      refine ⟨?_, ?_, ?_, h4, ?_⟩
      · intro j hj; exact h1 j (List.mem_of_mem_eraseP hj)
      · intro j hj; exact h2 j (List.mem_of_mem_eraseP hj)
      · intro jid' hjid' j hj hid
        exact h3 jid' hjid' j (List.mem_of_mem_eraseP hj) hid
      · exact List.Nodup.sublist ((List.eraseP_sublist st.jobs).map Job.id) h5

theorem inv_step {st : ServerState} {e : Event}
    (h : Inv st) (hw : WfEvent st e) : Inv (stepE st e) := by
  cases e with
  | submit tk cfg fs pr now rand => exact inv_submit h hw
  | fireStart jid now => exact inv_fireStart h
  | tick jid r now => exact inv_tick h hw.1
  | delete jid => exact inv_delete h

/-- Every reachable server state satisfies the invariant. -/
theorem reach_inv {st : ServerState} (h : Reach st) : Inv st := by
  induction h with
  | init => exact inv_init
  | step e _ hw ih => exact inv_step ih hw

/-! ## Tick sequences -/

/-- Apply a sequence of progress-tick firings (job id, `Math.random()` draw,
`Date.now()` reading). -/
def applyTicks (st : ServerState) : List (String × ℚ × Nat) → ServerState
  | [] => st
  | (jid, r, now) :: ts => applyTicks (tick st jid r now) ts

/-- A job that is not `running` is never touched by any tick: the tick
either writes a (then-`running`) record or writes nothing. -/
theorem tick_preserves_nonrunning {st : ServerState} {jid : String} {r : ℚ} {now : Nat}
    {j : Job} (hj : j ∈ st.jobs) (hnr : j.status ≠ JStatus.running) :
    j ∈ (tick st jid r now).jobs := by
  unfold tick
  by_cases hmem : jid ∈ st.activeIntervals
  · rw [if_pos hmem]
    cases hfind : st.jobs.find? (fun x => x.id == jid) with
    | none => exact hj
    | some c =>
      dsimp only
      by_cases hrun : (c.status == JStatus.running) = true
      · rw [if_pos hrun]
        refine mem_updFirst_of_ne hfind hj ?_
        intro heq
        subst heq
        exact hnr (beq_iff_eq.mp hrun)
      · rw [if_neg hrun]; exact hj
  · rw [if_neg hmem]; exact hj

theorem applyTicks_preserves_nonrunning {j : Job} (hnr : j.status ≠ JStatus.running) :
    ∀ (ts : List (String × ℚ × Nat)) (st : ServerState), j ∈ st.jobs →
      j ∈ (applyTicks st ts).jobs := by
  intro ts
  induction ts with
  | nil => intro st hj; exact hj
  | cons t ts ih =>
    intro st hj
    obtain ⟨jid, r, now⟩ := t
    exact ih _ (tick_preserves_nonrunning hj hnr)

/-- A tick whose re-read finds the job in a non-`running` state writes
nothing and clears its own interval. -/
theorem tick_guard {st : ServerState} {jid : String} {r : ℚ} {now : Nat} {j : Job}
    (hget : getJob st jid = some j) (hnr : j.status ≠ JStatus.running) :
    (tick st jid r now).jobs = st.jobs ∧
    (tick st jid r now).activeIntervals = st.activeIntervals.erase jid := by
  unfold getJob at hget
  unfold tick
  by_cases hmem : jid ∈ st.activeIntervals
  · rw [if_pos hmem, hget]
    dsimp only
    rw [if_neg (by simp [hnr])]
    exact ⟨rfl, rfl⟩
  · rw [if_neg hmem]
    exact ⟨rfl, (List.erase_of_not_mem hmem).symm⟩

/-- Claim C2: After a running job is cancelled via delete, no scheduler tick
mutates it again: each tick re-reads the job by id immediately before
writing, and on finding it `cancelled` performs no write and tears down its
own interval registration; hence the cancelled record survives, unchanged,
any sequence of subsequent ticks. -/
theorem c2_cancelled_frozen (st : ServerState) (j : Job)
    (hc : j.status = JStatus.cancelled) (hget : getJob st j.id = some j) :
    (∀ ts, j ∈ (applyTicks st ts).jobs) ∧
    (∀ r now, (tick st j.id r now).jobs = st.jobs ∧
      (tick st j.id r now).activeIntervals = st.activeIntervals.erase j.id) := by
  have hnr : j.status ≠ JStatus.running := by rw [hc]; intro h; cases h
  constructor
  · intro ts
    exact applyTicks_preserves_nonrunning hnr ts st (List.mem_of_find?_eq_some hget)
  · intro r now
    exact tick_guard hget hnr

/-- A cancelled job frozen mid-flight, as the delete handler leaves one
(the interval registration is still live; the next tick self-clears it). -/
def jC2 : Job :=
  { id := "job_1_aaaaaaaaa", toolkit := .str "molecular_dynamics", config := .obj []
    input_files := [], priority := 5, status := .cancelled, progress := 40
    created_at := 1, started_at := some 2001, completed_at := none
    queue_position := 1, estimated_completion := 7200001, results := none }

def stC2 : ServerState := ⟨[jC2], [], ["job_1_aaaaaaaaa"]⟩

theorem c2_witness :
    jC2.status = JStatus.cancelled ∧ getJob stC2 jC2.id = some jC2 ∧
    ((∀ ts, jC2 ∈ (applyTicks stC2 ts).jobs) ∧
      (∀ r now, (tick stC2 jC2.id r now).jobs = stC2.jobs ∧
        (tick stC2 jC2.id r now).activeIntervals = stC2.activeIntervals.erase jC2.id)) ∧
    (tick stC2 jC2.id (1/2) 9999).jobs = stC2.jobs :=
  ⟨by decide, by decide,
   c2_cancelled_frozen stC2 jC2 (by decide) (by decide),
   ((c2_cancelled_frozen stC2 jC2 (by decide) (by decide)).2 (1/2) 9999).1⟩

/-- Claim C7: In every reachable registry state, a job carries results
exactly when its status is `completed`: queued, running, cancelled (and
failed) jobs have no `results` key, and the completion branch of the tick
attaches a non-null result object in the same write that sets
`status='completed'`. -/
theorem c7_results_iff_completed (st : ServerState) (h : Reach st) :
    ∀ j ∈ st.jobs, (j.results.isSome = true ↔ j.status = JStatus.completed) :=
  (reach_inv h).1

/-! Concrete reachable states exercising the lifecycle: one submission,
its start transition, and six progress ticks (`Math.random()` drawing
`0.99` each time), after which the job is completed with results. -/

def eSub1 : Event := .submit (.str "molecular_docking") (.obj []) none none 1 "aaaaaaaaa"

def eGo1 : Event := .fireStart "job_1_aaaaaaaaa" 2001

def tick1 (now : Nat) : Event := .tick "job_1_aaaaaaaaa" (99/100) now

/-- The state right after the start transition: one `running` job. -/
def stRun : ServerState := stepE (stepE initState eSub1) eGo1

theorem reach_stRun : Reach stRun :=
  Reach.step eGo1 (Reach.step eSub1 Reach.init (by decide)) (by decide)

/-- Six ticks later: the job has completed. -/
def stDone : ServerState :=
  stepE (stepE (stepE (stepE (stepE (stepE stRun (tick1 3001)) (tick1 4001))
    (tick1 5001)) (tick1 6001)) (tick1 7001)) (tick1 8001)

theorem wf_tick1 (st : ServerState) (now : Nat) : WfEvent st (tick1 now) :=
  ⟨by norm_num, by norm_num⟩

theorem reach_stDone : Reach stDone :=
  Reach.step (tick1 8001)
    (Reach.step (tick1 7001)
      (Reach.step (tick1 6001)
        (Reach.step (tick1 5001)
          (Reach.step (tick1 4001)
            (Reach.step (tick1 3001) reach_stRun (wf_tick1 _ _))
            (wf_tick1 _ _))
          (wf_tick1 _ _))
        (wf_tick1 _ _))
      (wf_tick1 _ _))
    (wf_tick1 _ _)

theorem c7_witness :
    Reach stDone ∧
    ∀ j ∈ stDone.jobs, (j.results.isSome = true ↔ j.status = JStatus.completed) :=
  ⟨reach_stDone, c7_results_iff_completed stDone reach_stDone⟩

/-- Claim C6: a progress tick never decreases a job's progress, adds at most
20 percentage points (`Math.random() * 20` with the draw in `[0,1)`), and
clamps the result at 100 (`Math.min(·, 100)`). -/
theorem c6_progress_monotone (st : ServerState) (jid : String) (j : Job)
    (r : ℚ) (now : Nat) (hreach : Reach st) (hget : getJob st jid = some j)
    (hr0 : 0 ≤ r) (hr1 : r < 1) :
    ∃ j', getJob (tick st jid r now) jid = some j' ∧
      j.progress ≤ j'.progress ∧ j'.progress ≤ j.progress + 20 ∧
      j'.progress ≤ 100 := by
  have hbounds := (reach_inv hreach).2.1 j (List.mem_of_find?_eq_some (by exact hget))
  unfold getJob at hget
  unfold tick
  by_cases hmem : jid ∈ st.activeIntervals
  · rw [if_pos hmem, hget]
    dsimp only
    by_cases hrun : (j.status == JStatus.running) = true
    · rw [if_pos hrun]
      refine ⟨advance r now j, ?_, ?_, ?_, ?_⟩
      · unfold getJob
        dsimp only
        refine find?_updFirst hget ?_
        have hp := List.find?_some hget
        rw [advance_id]
        exact hp
      · rw [advance_progress]
        exact le_min (by linarith) hbounds.2
      · rw [advance_progress]
        calc min (j.progress + r * 20) 100 ≤ j.progress + r * 20 := min_le_left _ _
          _ ≤ j.progress + 20 := by linarith
      · rw [advance_progress]
        exact min_le_right _ _
    · rw [if_neg hrun]
      exact ⟨j, hget, le_refl _, by linarith, hbounds.2⟩
  · rw [if_neg hmem]
    exact ⟨j, hget, le_refl _, by linarith, hbounds.2⟩

/-- The running record inside `stRun`. -/
def jRun : Job :=
  { id := "job_1_aaaaaaaaa", toolkit := .str "molecular_docking", config := .obj []
    input_files := [], priority := 5, status := .running, progress := 0
    created_at := 1, started_at := some 2001, completed_at := none
    queue_position := 1, estimated_completion := 7200001, results := none }

theorem c6_witness :
    (Reach stRun ∧ getJob stRun "job_1_aaaaaaaaa" = some jRun ∧
      0 ≤ (1/2 : ℚ) ∧ (1/2 : ℚ) < 1) ∧
    (∃ j', getJob (tick stRun "job_1_aaaaaaaaa" (1/2) 3001) "job_1_aaaaaaaaa" = some j' ∧
      jRun.progress ≤ j'.progress ∧ j'.progress ≤ jRun.progress + 20 ∧
      j'.progress ≤ 100) :=
  ⟨⟨reach_stRun, by decide, by norm_num, by norm_num⟩,
   c6_progress_monotone stRun "job_1_aaaaaaaaa" jRun (1/2) 3001 reach_stRun
     (by decide) (by norm_num) (by norm_num)⟩

/-- With duplicate-free ids, removing the id's record leaves no record
with that id behind. -/
theorem find?_eraseP_of_nodup {l : List Job} {jid : String}
    (h : (l.map Job.id).Nodup) :
    (l.eraseP (fun j => j.id == jid)).find? (fun j => j.id == jid) = none := by
  induction l with
  | nil => rfl
  | cons x xs ih =>
    simp only [List.map_cons, List.nodup_cons] at h
    by_cases hx : (x.id == jid) = true
    · have hcons : (x :: xs).eraseP (fun j => j.id == jid) = xs := by
        simp only [List.eraseP_cons, hx, cond_true]
      rw [hcons, List.find?_eq_none]
      intro y hy hpy
      apply h.1
      rw [List.mem_map]
      refine ⟨y, hy, ?_⟩
      rw [beq_iff_eq] at hx hpy
      rw [hpy, hx]
    · rw [Bool.not_eq_true] at hx
      have hcons : (x :: xs).eraseP (fun j => j.id == jid)
          = x :: xs.eraseP (fun j => j.id == jid) := by
        simp only [List.eraseP_cons, hx, cond_false]
      rw [hcons, List.find?_cons_of_neg _ (by simp [hx])]
      exact ih h.2

/-- Claim C4, amended: delete on an existing id is decided by status: a
`running` job is cancelled in place — the record stays in the registry,
remains findable, and the response is the message `"Job cancelled"` with
the updated record; any other job is removed outright with the message
`"Job deleted"`, after which (ids being duplicate-free) `get` finds
nothing; a missing id yields the not-found error and leaves the state
untouched. -/
theorem c4_delete_cases (st : ServerState) (jid : String) :
    (getJob st jid = none →
      deleteJob st jid = (st, .notFound "Job not found")) ∧
    (∀ j, getJob st jid = some j → j.status = JStatus.running →
      (deleteJob st jid).2
          = .cancelled "Job cancelled" { j with status := JStatus.cancelled } ∧
      getJob (deleteJob st jid).1 jid = some { j with status := JStatus.cancelled } ∧
      (deleteJob st jid).1.jobs.length = st.jobs.length) ∧
    (∀ j, getJob st jid = some j → j.status ≠ JStatus.running →
      (deleteJob st jid).2 = .deleted "Job deleted" ∧
      (deleteJob st jid).1.jobs.length + 1 = st.jobs.length ∧
      ((st.jobs.map Job.id).Nodup → getJob (deleteJob st jid).1 jid = none)) := by
  refine ⟨?_, ?_, ?_⟩
  · intro hnone
    unfold getJob at hnone
    unfold deleteJob
    rw [hnone]
  · intro j hget hrun
    unfold getJob at hget
    unfold deleteJob
    rw [hget]
    dsimp only
    rw [if_pos (by rw [beq_iff_eq]; exact hrun)]
    refine ⟨rfl, ?_, ?_⟩
    · unfold getJob
      dsimp only
      refine find?_updFirst hget ?_
      have hp := List.find?_some hget
      exact hp
    · dsimp only
      exact updFirst_length _ _ _
  · intro j hget hnrun
    unfold getJob at hget
    unfold deleteJob
    rw [hget]
    dsimp only
    rw [if_neg (by simp [hnrun])]
    refine ⟨rfl, ?_, ?_⟩
    · dsimp only
      have hmem := List.mem_of_find?_eq_some hget
      have hp := List.find?_some hget
      rw [List.length_eraseP_of_mem hmem hp]
      have hpos : 0 < st.jobs.length := List.length_pos.mpr (List.ne_nil_of_mem hmem)
      omega
    · intro hnodup
      unfold getJob
      dsimp only
      exact find?_eraseP_of_nodup hnodup

/-- A one-job registry whose job is mid-run, as the scheduler leaves it
after the start transition. -/
def jC4 : Job :=
  { id := "job_3_bbbbbbbbb", toolkit := .str "retrosynthesis", config := .obj []
    input_files := [], priority := 5, status := .running, progress := 10
    created_at := 3, started_at := some 2003, completed_at := none
    queue_position := 1, estimated_completion := 7200003, results := none }

def stC4 : ServerState := ⟨[jC4], [], ["job_3_bbbbbbbbb"]⟩

/-- Claim C4, counterexample: the delete handler's messages are
`'Job cancelled'` / `'Job deleted'` (`server.js` 136, 139), not the
`"cancelled"` / `"deleted"` the claim states. -/
theorem c4_counterexample :
    (deleteJob stC4 "job_3_bbbbbbbbb").2
        = DeleteResponse.cancelled "Job cancelled" { jC4 with status := JStatus.cancelled } ∧
    "Job cancelled" ≠ "cancelled" ∧ "Job deleted" ≠ "deleted" := by
  decide

/-- A one-job registry whose job is still queued (start timer pending). -/
def jQd : Job :=
  { id := "job_4_ddddddddd", toolkit := .str "quantum_chemistry", config := .obj []
    input_files := [], priority := 5, status := .queued, progress := 0
    created_at := 4, started_at := none, completed_at := none
    queue_position := 1, estimated_completion := 7200004, results := none }

def stQd : ServerState := ⟨[jQd], ["job_4_ddddddddd"], []⟩

theorem c4_witness :
    (getJob stC4 "job_3_bbbbbbbbb" = some jC4 ∧ jC4.status = JStatus.running) ∧
    ((deleteJob stC4 "job_3_bbbbbbbbb").2
        = .cancelled "Job cancelled" { jC4 with status := JStatus.cancelled } ∧
      getJob (deleteJob stC4 "job_3_bbbbbbbbb").1 "job_3_bbbbbbbbb"
        = some { jC4 with status := JStatus.cancelled } ∧
      (deleteJob stC4 "job_3_bbbbbbbbb").1.jobs.length = stC4.jobs.length) ∧
    (getJob stC4 "nope" = none ∧
      deleteJob stC4 "nope" = (stC4, .notFound "Job not found")) ∧
    (getJob stQd "job_4_ddddddddd" = some jQd ∧ jQd.status ≠ JStatus.running ∧
      ((deleteJob stQd "job_4_ddddddddd").2 = .deleted "Job deleted" ∧
        (deleteJob stQd "job_4_ddddddddd").1.jobs.length + 1 = stQd.jobs.length ∧
        ((stQd.jobs.map Job.id).Nodup →
          getJob (deleteJob stQd "job_4_ddddddddd").1 "job_4_ddddddddd" = none))) :=
  ⟨⟨by decide, by decide⟩,
   (c4_delete_cases stC4 "job_3_bbbbbbbbb").2.1 jC4 (by decide) (by decide),
   ⟨by decide, (c4_delete_cases stC4 "nope").1 (by decide)⟩,
   ⟨by decide, by decide,
    (c4_delete_cases stQd "job_4_ddddddddd").2.2 jQd (by decide) (by decide)⟩⟩

/-- Claim C8: a submission with `toolkit` or `config` absent (`undefined`)
fails with the validation error naming the required fields and leaves the
whole server state — registry and timer registrations — untouched; a
submission passing validation grows the registry by exactly one and
returns the created record. -/
theorem c8_submit_validation (st : ServerState) (tk cfg : JSVal)
    (fs : Option (List String)) (pr : Option Int) (now : Nat) (rand : String) :
    ((tk = JSVal.undef ∨ cfg = JSVal.undef) →
      submit st tk cfg fs pr now rand
        = (st, .validationError 400 "Missing required fields: toolkit and config")) ∧
    (tk.truthy = true → cfg.truthy = true →
      (submit st tk cfg fs pr now rand).1.jobs.length = st.jobs.length + 1 ∧
      (submit st tk cfg fs pr now rand).2
        = .created 201 (mkJob st tk cfg fs pr now rand)) := by
  constructor
  · intro h
    have hcond : (!tk.truthy || !cfg.truthy) = true := by
      rcases h with h | h <;> subst h <;> simp [JSVal.truthy]
    unfold submit
    rw [if_pos hcond]
  · intro h1 h2
    unfold submit
    rw [if_neg (by simp [h1, h2])]
    exact ⟨by simp, rfl⟩

theorem c8_witness :
    (JSVal.undef = JSVal.undef ∨ (JSVal.obj [] : JSVal) = JSVal.undef) ∧
    submit initState JSVal.undef (JSVal.obj []) none none 0 "abcdefghi"
      = (initState, .validationError 400 "Missing required fields: toolkit and config") ∧
    (JSVal.str "molecular_dynamics").truthy = true ∧ (JSVal.obj [] : JSVal).truthy = true ∧
    (submit initState (JSVal.str "molecular_dynamics") (JSVal.obj []) none none 0 "abcdefghi").1.jobs.length
      = initState.jobs.length + 1 :=
  ⟨Or.inl rfl,
   (c8_submit_validation initState JSVal.undef (JSVal.obj []) none none 0 "abcdefghi").1 (Or.inl rfl),
   rfl, rfl,
   ((c8_submit_validation initState (JSVal.str "molecular_dynamics") (JSVal.obj []) none none 0
      "abcdefghi").2 rfl rfl).1⟩

/-- Claim C10: the submit guard tests truthiness, so every falsy `toolkit` or
`config` — empty string, `0`, `false`, `null`, just like `undefined` — is
rejected with the same validation error, and a job can only ever be
created from truthy `toolkit` and `config` values. -/
theorem c10_falsy_rejected (st : ServerState) (tk cfg : JSVal)
    (fs : Option (List String)) (pr : Option Int) (now : Nat) (rand : String) :
    ((tk.truthy = false ∨ cfg.truthy = false) →
      submit st tk cfg fs pr now rand
        = (st, .validationError 400 "Missing required fields: toolkit and config")) ∧
    (∀ st' code j, submit st tk cfg fs pr now rand = (st', SubmitResponse.created code j) →
      tk.truthy = true ∧ cfg.truthy = true) ∧
    (JSVal.str "").truthy = false ∧ (JSVal.num 0).truthy = false ∧
    (JSVal.bool false).truthy = false ∧ JSVal.null.truthy = false := by
  refine ⟨?_, ?_, rfl, by decide, rfl, rfl⟩
  · intro h
    have hcond : (!tk.truthy || !cfg.truthy) = true := by
      rcases h with h | h <;> simp [h]
    unfold submit
    rw [if_pos hcond]
  · intro st' code j hs
    by_cases h1 : tk.truthy = true
    · by_cases h2 : cfg.truthy = true
      · exact ⟨h1, h2⟩
      · exfalso
        rw [Bool.not_eq_true] at h2
        unfold submit at hs
        rw [if_pos (by simp [h2])] at hs
        simp [Prod.ext_iff] at hs
    · exfalso
      rw [Bool.not_eq_true] at h1
      unfold submit at hs
      rw [if_pos (by simp [h1])] at hs
      simp [Prod.ext_iff] at hs

theorem c10_witness :
    ((JSVal.str "").truthy = false ∨ (JSVal.num 0).truthy = false) ∧
    submit initState (JSVal.str "") (JSVal.num 0) none none 0 "abcdefghi"
      = (initState, .validationError 400 "Missing required fields: toolkit and config") :=
  ⟨Or.inl rfl,
   (c10_falsy_rejected initState (JSVal.str "") (JSVal.num 0) none none 0 "abcdefghi").1
     (Or.inl rfl)⟩

/-- Claim C9: stats reports `total` as the registry size and `success_rate`
as completed-count over total-count times 100, rounded to two decimal
places; the empty registry reports `total = 0` and the division-by-zero
guard makes `success_rate = 100`. -/
theorem c9_stats_success_rate :
    (∀ jobs : List Job,
      (statsOf jobs).total_jobs = jobs.length ∧
      (statsOf jobs).completed = jobs.countP (fun j => j.status == JStatus.completed) ∧
      (statsOf jobs).success_rate =
        (if 0 < jobs.length then
          toFixed2 ((jobs.countP (fun j => j.status == JStatus.completed) : ℚ)
            / (jobs.length : ℚ) * 100)
        else 100)) ∧
    (statsOf []).total_jobs = 0 ∧ (statsOf []).success_rate = 100 := by
  refine ⟨?_, rfl, rfl⟩
  intro jobs
  refine ⟨rfl, ?_, ?_⟩
  · unfold statsOf
    dsimp only
    rw [List.countP_eq_length_filter]
  · simp only [statsOf, List.countP_eq_length_filter, gt_iff_lt]

/-- A registry holding two submitted jobs, built through the submit
handler. -/
def stC1 : ServerState :=
  (submit (submit initState (.str "molecular_dynamics") (.obj []) none none 1 "aaaaaaaaa").1
    (.str "molecular_dynamics") (.obj []) none none 2 "bbbbbbbbb").1

/-- Claim C1, counterexample: the list handler computes `total` *after*
`slice(0, limit)` (`server.js` 115 then 118): with two submitted jobs and
`limit = 1` it returns one job and `total = 1`, not the claimed 2. -/
theorem c1_counterexample :
    stC1.jobs.length = 2 ∧
    (listJobs stC1 none none (some "1")).jobs.length = 1 ∧
    (listJobs stC1 none none (some "1")).total = 1 ∧
    (listJobs stC1 none none (some "1")).total ≠ 2 := by
  decide

/-- Claim C1, amended: `total` equals the length of the *truncated* jobs
sequence — the filtered match count capped by `limit` — while `jobs` is the
filtered match set truncated to at most `limit` entries. -/
theorem c1_total_after_truncation :
    (∀ st status toolkit limit,
      (listJobs st status toolkit limit).total
        = (listJobs st status toolkit limit).jobs.length) ∧
    (∀ st status toolkit ls (k : Nat), jsParseInt ls = some (k : Int) →
      (listJobs st status toolkit (some ls)).jobs
          = (matchingJobs st status toolkit).take k ∧
      (listJobs st status toolkit (some ls)).total
          = min k (matchingJobs st status toolkit).length) := by
  constructor
  · intro st s t l
    rfl
  · intro st s t ls k hk
    unfold listJobs effLimit jsSliceTo
    dsimp only
    rw [hk]
    dsimp only
    rw [if_neg (by omega)]
    have ht : ((k : Int)).toNat = k := rfl
    rw [ht]
    exact ⟨rfl, by simp [List.length_take]⟩

theorem c1_witness :
    jsParseInt "1" = some ((1 : Nat) : Int) ∧
    (listJobs stC1 none none (some "1")).jobs = (matchingJobs stC1 none none).take 1 ∧
    (listJobs stC1 none none (some "1")).total = min 1 (matchingJobs stC1 none none).length :=
  ⟨by decide, c1_total_after_truncation.2 stC1 none none "1" 1 (by decide)⟩

/-- A registry holding one submitted job. -/
def stC3 : ServerState :=
  (submit initState (.str "molecular_dynamics") (.obj []) none none 1 "aaaaaaaaa").1

/-- Claim C3, counterexample: a non-numeric `limit` does not fall back to
the default: `parseInt('abc')` is `NaN` and `slice(0, NaN)` truncates to
nothing, so a one-job registry lists zero jobs, while the absent-limit
default of 50 would list it. -/
theorem c3_counterexample :
    stC3.jobs.length = 1 ∧
    (listJobs stC3 none none none).jobs.length = 1 ∧
    (listJobs stC3 none none (some "abc")).jobs = [] ∧
    (listJobs stC3 none none (some "abc")).total = 0 := by
  decide

/-- Claim C3, amended: an *absent* `limit` falls back to the default of 50;
a *non-numeric* `limit` instead makes `parseInt` yield `NaN`, which
`slice(0, ·)` coerces to 0, so the list succeeds but returns an empty jobs
sequence with `total = 0`. -/
theorem c3_limit_fallback :
    (∀ st status toolkit,
      (listJobs st status toolkit none).jobs = (matchingJobs st status toolkit).take 50 ∧
      (listJobs st status toolkit none).total
        = min 50 (matchingJobs st status toolkit).length) ∧
    (∀ st status toolkit ls, jsParseInt ls = none →
      (listJobs st status toolkit (some ls)).jobs = [] ∧
      (listJobs st status toolkit (some ls)).total = 0) := by
  constructor
  · intro st s t
    unfold listJobs effLimit jsSliceTo
    dsimp only
    rw [if_neg (by omega)]
    have ht : ((50 : Int)).toNat = 50 := rfl
    rw [ht]
    exact ⟨rfl, by simp [List.length_take]⟩
  · intro st s t ls h
    unfold listJobs effLimit jsSliceTo
    dsimp only
    rw [h]
    exact ⟨rfl, rfl⟩

theorem c3_witness :
    jsParseInt "abc" = none ∧
    (listJobs stC3 none none (some "abc")).jobs = [] ∧
    (listJobs stC3 none none (some "abc")).total = 0 :=
  ⟨by decide, c3_limit_fallback.2 stC3 none none "abc" (by decide)⟩

/-- The job carried by a 201 response, when there is one. -/
def createdJob : SubmitResponse → Option Job
  | .created _ j => some j
  | _ => none

/-- Claim C5, counterexample: two distinct submissions that draw the same
`Date.now()` millisecond and the same random suffix receive the *same* id:
`job_5_aaaaaaaaa` twice, so id uniqueness is not guaranteed. -/
theorem c5_counterexample :
    (createdJob (submit initState (.str "molecular_dynamics") (.obj [])
        none none 5 "aaaaaaaaa").2).map Job.id = some "job_5_aaaaaaaaa" ∧
    (createdJob (submit (submit initState (.str "molecular_dynamics") (.obj [])
          none none 5 "aaaaaaaaa").1
        (.str "structure_prediction") (.obj []) none none 5 "aaaaaaaaa").2).map Job.id
      = some "job_5_aaaaaaaaa" := by
  decide

/-- Claim C5, amended: every created job's id is
`` `job_${Date.now()}_${rand}` ``, and that rendering is injective in the
(timestamp, suffix) pair: ids of two submissions are distinct *whenever
their millisecond timestamps or random suffixes differ* — uniqueness holds
exactly up to a simultaneous collision of both oracle draws. -/
theorem c5_id_unique_iff_oracle :
    (∀ st tk cfg fs pr now rand st' code j,
      submit st tk cfg fs pr now rand = (st', SubmitResponse.created code j) →
      j.id = genJobId now rand) ∧
    (∀ (n1 : Nat) (r1 : String) (n2 : Nat) (r2 : String),
      (n1, r1) ≠ (n2, r2) → genJobId n1 r1 ≠ genJobId n2 r2) := by
  constructor
  · intro st tk cfg fs pr now rand st' code j h
    by_cases hv : (!tk.truthy || !cfg.truthy) = true
    · unfold submit at h
      rw [if_pos hv] at h
      simp [Prod.ext_iff] at h
    · unfold submit at h
      rw [if_neg hv] at h
      have h2 := congrArg Prod.snd h
      dsimp only at h2
      injection h2 with hcode hj
      rw [← hj]
      rfl
  · intro n1 r1 n2 r2 hne heq
    obtain ⟨h1, h2⟩ := genJobId_inj heq
    exact hne (by rw [h1, h2])

theorem c5_witness :
    ((5, "aaaaaaaaa") ≠ ((6 : Nat), "aaaaaaaaa")) ∧
    genJobId 5 "aaaaaaaaa" ≠ genJobId 6 "aaaaaaaaa" ∧
    (createdJob (submit initState (.str "molecular_dynamics") (.obj [])
        none none 7 "ccccccccc").2).map Job.id = some (genJobId 7 "ccccccccc") :=
  ⟨by decide,
   c5_id_unique_iff_oracle.2 5 "aaaaaaaaa" 6 "aaaaaaaaa" (by decide),
   by decide⟩

end ComputeLab
